import Mathlib

/-!
Verification of the bbc_pidgin_scraper crawl pipeline.

The development shallowly embeds the two source files of the repository:

* `helpers.py` — the Swahili URL validity predicate `_is_valid_url_sw`;
* `scraper.py` — listing-page URL discovery (`get_urls` / `get_valid_urls`),
  sub-topic discovery (`get_topics`), article extraction
  (`get_article_data`), the per-category writer (`write_articles`), the
  spread quota allocation of `__main__`, and the final pandas merge
  (`concat` + `drop_duplicates(subset="url", keep="last")`).

Python strings are modelled as `List Char` (`PyStr`) wherever the code does
character-level work (splitting on "/", prefix tests, last-character digit
tests), so that Python's partial operations (`s[-1]`, unpacking, `[0]`
indexing) can be given both a total embedding and a crash-explicit
`Except`-valued embedding whose agreement is proved.  The article pipeline,
whose claims never inspect characters of headline/body, uses plain `String`
fields.  Network fetches are modelled as explicit page values or as an
`Option`-valued fetch oracle (a `none` result is a raised fetch error, which
in the source propagates as a Python exception).
-/

/-- A Python `str` modelled as its list of characters. -/
abbrev PyStr := List Char

/-- Python `s.split(p)` generalised to a character predicate: cuts at every
matching character and keeps empty segments, so that splitting the empty
string yields `[""]`, exactly as in Python. -/
def pySplitPred (p : Char → Bool) : PyStr → List PyStr
  | [] => [[]]
  | c :: rest =>
    if p c then [] :: pySplitPred p rest
    else
      match pySplitPred p rest with
      | [] => [[c]]
      | seg :: segs => (c :: seg) :: segs

/-- Python `s.split(sep)` for a one-character separator, e.g. `href.split("/")`
and `stub.split("-")` in `get_valid_urls`. -/
def pySplit (sep : Char) (s : PyStr) : List PyStr :=
  pySplitPred (fun c => c == sep) s

/-- Python `filter(None, xs)` over a list of strings: drops the falsy
(empty) strings. -/
def filterNonEmpty (ls : List PyStr) : List PyStr :=
  ls.filter (fun l => !l.isEmpty)

/-- Python `s.isdigit()` restricted to ASCII: non-empty and all characters
decimal digits. -/
def pyIsDigit (s : PyStr) : Bool :=
  !s.isEmpty && s.all Char.isDigit

/-- Fuel-indexed left-to-right scanner behind `pyReplace`.  Each step either
consumes the pattern (non-overlapping match, as Python `str.replace`) or one
character, so fuel `s.length` is always enough; the fuel only makes the
recursion structural. -/
def pyReplaceFuel (pat rep : PyStr) : Nat → PyStr → PyStr
  | 0, s => s
  | _ + 1, [] => []
  | fuel + 1, c :: rest =>
    if !pat.isEmpty && pat.isPrefixOf (c :: rest) then
      rep ++ pyReplaceFuel pat rep fuel ((c :: rest).drop pat.length)
    else
      c :: pyReplaceFuel pat rep fuel rest

/-- Python `s.replace(pat, rep)`: replaces every non-overlapping occurrence
of `pat`, scanning from the left. -/
def pyReplace (pat rep s : PyStr) : PyStr :=
  pyReplaceFuel pat rep s.length s

/-- The constant site prefix `"https://www.bbc.com"` that `scraper.py`
prepends to every accepted href and `helpers.py` strips from its input. -/
def bbcHost : PyStr := ("https://www.bbc.com").data

/-- Python `s[-1]` made crash-explicit: indexing the last character of an
empty string raises `IndexError`, modelled as `Except.error`. -/
def pyLastE (s : PyStr) : Except Unit Char :=
  match s.getLast? with
  | some c => Except.ok c
  | none => Except.error ()

/-- Python `xs[0]` on a list made crash-explicit: indexing an empty list
raises `IndexError`, modelled as `Except.error`. -/
def pyHeadE (ls : List PyStr) : Except Unit PyStr :=
  match ls with
  | [] => Except.error ()
  | x :: _ => Except.ok x

/-! ### helpers.py — the Swahili URL validity predicate -/

/-- The deny-listed path prefixes of `helpers._is_valid_url_sw`
(topics, sport/michezo, radio, TV, media, institutional sections). -/
def swDenyList : List PyStr :=
  [("/swahili/topics").data,
   ("/swahili/michezo").data,
   ("/swahili/bbc_swahili_radio").data,
   ("/swahili/dira-tv").data,
   ("/swahili/media").data,
   ("/swahili/taasisi").data]

/-- Total embedding of `helpers._is_valid_url_sw`.  The Python function
returns `True`, `False`, or falls off the end (returning `None`), so the
result type is `Option Bool`: `some b` is an explicit `return`, `none` the
implicit `None` fall-through (falsy in every boolean context).  The partial
`href[-1]` is rendered total with `getLastD`; agreement with the
crash-explicit version is proved below. -/
def _is_valid_url_sw (href : PyStr) : Option Bool :=
  let h := pyReplace bbcHost [] href
  if ("/swahili/articles/").data.isPrefixOf h then some true
  else if ("/swahili/habari-").data.isPrefixOf h || ("/swahili/").data.isPrefixOf h then
    if swDenyList.any (fun p => p.isPrefixOf h) then none
    else if (h.getLastD ' ').isDigit then some true
    else none
  else some false

/-- Crash-explicit embedding of `helpers._is_valid_url_sw`: the `href[-1]`
indexing is performed with `pyLastE`, so a crash of the Python function would
surface as `Except.error`. -/
def _is_valid_url_sw_E (href : PyStr) : Except Unit (Option Bool) :=
  let h := pyReplace bbcHost [] href
  if ("/swahili/articles/").data.isPrefixOf h then Except.ok (some true)
  else if ("/swahili/habari-").data.isPrefixOf h || ("/swahili/").data.isPrefixOf h then
    if swDenyList.any (fun p => p.isPrefixOf h) then Except.ok none
    else
      match pyLastE h with
      | Except.error e => Except.error e
      | Except.ok c => Except.ok (if c.isDigit then some true else none)
  else Except.ok (some false)

/-! ### scraper.get_valid_urls — per-href validation on a listing page -/

/-- The `try` block of `scraper.get_valid_urls`:
`_, stub = list(filter(None, href.split("/")))`.
Input `none` is an anchor without an href attribute (`href.split` then raises
`AttributeError`); an unpack of anything but exactly two non-empty segments
raises `ValueError`.  Both exceptions are caught by the `except` clause and
make the loop `continue`, so the model returns `none` for them and otherwise
the pair (href, stub). -/
def tryUnpack : Option PyStr → Option (PyStr × PyStr)
  | none => none
  | some h =>
    match filterNonEmpty (pySplit '/' h) with
    | [_pre, stub] => some (h, stub)
    | _ => none

/-- The stub acceptance test of `scraper.get_valid_urls`:
`stub.isdigit() or (stub.split("-")[0] in CONFIG["VALID_ARTICLE_URL_STUBS"]
and stub[-1].isdigit())`.  The configured stub allow-list (from `config.yml`,
not part of the source tree) is a parameter.  Total rendering of the partial
`[0]` and `[-1]` indexing; agreement with the crash-explicit version is
proved below. -/
def stubOk (stubs : List PyStr) (stub : PyStr) : Bool :=
  pyIsDigit stub ||
    (decide ((pySplit '-' stub).headI ∈ stubs) && (stub.getLastD ' ').isDigit)

/-- Crash-explicit version of `stubOk`, with Python's left-to-right
short-circuit evaluation order of `or` / `and` and explicit `IndexError`
channels for `stub.split("-")[0]` and `stub[-1]`. -/
def stubCheckE (stubs : List PyStr) (stub : PyStr) : Except Unit Bool :=
  if pyIsDigit stub then Except.ok true
  else
    match pyHeadE (pySplit '-' stub) with
    | Except.error e => Except.error e
    | Except.ok h0 =>
      if h0 ∈ stubs then
        match pyLastE stub with
        | Except.error e => Except.error e
        | Except.ok c => Except.ok c.isDigit
      else Except.ok false

/-- One loop iteration of `scraper.get_valid_urls` for a single anchor href:
yields `some story_url` when the href is accepted (the story URL is the
constant site prefix concatenated with the href) and `none` when the
iteration `continue`s or does not append. -/
def hrefStep (stubs : List PyStr) (href : Option PyStr) : Option PyStr :=
  match tryUnpack href with
  | none => none
  | some (h, stub) =>
    if stubOk stubs stub then some (bbcHost ++ h) else none

/-- Crash-explicit version of `hrefStep`: the stub tests sit outside the
`try`/`except`, so an `IndexError` there would propagate. -/
def hrefStepE (stubs : List PyStr) (href : Option PyStr) : Except Unit (Option PyStr) :=
  match tryUnpack href with
  | none => Except.ok none
  | some (h, stub) =>
    match stubCheckE stubs stub with
    | Except.error e => Except.error e
    | Except.ok ok => Except.ok (if ok then some (bbcHost ++ h) else none)

/-- Deduplication with a seen-accumulator: deterministic stand-in for
Python's `list(set(...))` at the end of `get_valid_urls` (set semantics;
iteration order is not significant downstream). Keeps the first occurrence. -/
def dedupFirstAux (seen : List PyStr) : List PyStr → List PyStr
  | [] => []
  | x :: rest =>
    if x ∈ seen then dedupFirstAux seen rest
    else x :: dedupFirstAux (x :: seen) rest

/-- Embedding of `scraper.get_valid_urls`: a listing page is its list of
anchor hrefs (`none` = anchor without href attribute); each href goes
through the accept step and the accepted story URLs are deduplicated
(`list(set(valid_article_urls))`). -/
def get_valid_urls (stubs : List PyStr) (hrefs : List (Option PyStr)) : List PyStr :=
  dedupFirstAux [] (hrefs.filterMap (hrefStep stubs))

example : pySplit '/' (("https://123").data) =
    [("https:").data, [], ("123").data] := by decide

example : hrefStep [] (some (("/a/1").data)) =
    some (("https://www.bbc.com/a/1").data) := by decide

example : hrefStep [] (some (("https://www.bbc.com/pidgin/tori-123").data)) = none := by decide

example : _is_valid_url_sw (("/swahili/topics/c-123").data) = none := by decide

example : _is_valid_url_sw (("/swahili/habari-56789").data) = some true := by decide

example : _is_valid_url_sw [] = some false := by decide

/-! ### scraper.get_urls — paginated URL discovery for one category -/

/-- A category listing as seen through the fetch boundary:
`pageCount` is what `get_page_count` reads from the pagination control of
page 1, and `page k` is the list of anchor hrefs served for
`category_url + "?page=k"` (page 1 is the category URL itself). -/
structure ListingSite where
  pageCount : Nat
  page : Nat → List (Option PyStr)

/-- The `for count in range(1, total_page_count)` loop of `scraper.get_urls`,
iterating over the remaining page numbers: fetch each page, validate its
hrefs, append to the accumulated list (`category_urls += page_urls`), and
break as soon as `articles_per_category > 0` and the accumulated length has
reached it. -/
def urlPages (stubs : List PyStr) (site : ListingSite) (quota : Int) :
    List Nat → List PyStr → List PyStr
  | [], acc => acc
  | k :: rest, acc =>
    let acc2 := acc ++ get_valid_urls stubs (site.page k)
    if 0 < quota ∧ quota ≤ (acc2.length : Int) then acc2
    else urlPages stubs site quota rest acc2

/-- Embedding of `scraper.get_urls`: fetch page 1, validate, read the total
page count; when more than one page, short-circuit if the quota is already
met and otherwise walk pages `2 .. pageCount` with the loop above.
`quota` is `articles_per_category` (`-1` means unbounded). -/
def get_urls (stubs : List PyStr) (site : ListingSite) (quota : Int) : List PyStr :=
  let urls1 := get_valid_urls stubs (site.page 1)
  if 1 < site.pageCount then
    if 0 < quota ∧ quota ≤ (urls1.length : Int) then urls1
    else urlPages stubs site quota (List.range' 2 (site.pageCount - 1)) urls1
  else urls1

/-! ### scraper.get_topics — best-effort(?) sub-topic discovery -/

/-- A fetched page as `get_topics` sees it: the anchor hrefs (for
`get_valid_urls`) and the topic `<li>` elements, each carrying its text and
the href of its inner anchor. -/
structure TopicSoup where
  links : List (Option PyStr)
  topicItems : List (PyStr × PyStr)
deriving DecidableEq

/-- Python `s.split()` with no argument: split on whitespace runs, dropping
empty segments. -/
def splitWs (s : PyStr) : List PyStr :=
  filterNonEmpty (pySplitPred Char.isWhitespace s)

/-- Python `sep.join(xs)` for a one-character separator. -/
def joinChar (sep : Char) : List PyStr → PyStr
  | [] => []
  | [s] => s
  | s :: rest => s ++ sep :: joinChar sep rest

/-- The topic-name normalisation of `scraper.get_topics`:
`"_".join(topic.text.split()).upper().replace("/", "_").replace("\\", "_")`.
The two one-character `replace`s are rendered as character maps. -/
def topicName (text : PyStr) : PyStr :=
  (((joinChar '_' (splitWs text)).map Char.toUpper).map
      (fun c => if c == '/' then '_' else c)).map
    (fun c => if c == '\\' then '_' else c)

/-- Python dict assignment `d[k] = v` on an insertion-ordered association
list: overwrite in place when the key exists, append otherwise. -/
def dictInsert (k v : PyStr) : List (PyStr × PyStr) → List (PyStr × PyStr)
  | [] => [(k, v)]
  | (k0, v0) :: rest =>
    if k0 = k then (k, v) :: rest else (k0, v0) :: dictInsert k v rest

/-- The per-article loop of `scraper.get_topics`.  `fetch` is the network
boundary (`get_page_soup`); a `none` result is a raised fetch error.  The
loop body has no `try`/`except` in the source, so a failed fetch of any
article URL propagates and the whole call yields `none`. -/
def goTopics (fetch : PyStr → Option TopicSoup) (known : List PyStr) :
    List PyStr → List (PyStr × PyStr) → Option (List (PyStr × PyStr))
  | [], topics => some topics
  | url :: rest, topics =>
    match fetch url with
    | none => none
    | some soup =>
      let topics2 := soup.topicItems.foldl
        (fun acc item =>
          let topicUrl := bbcHost ++ item.2
          if topicUrl ∈ known then acc
          else dictInsert (topicName item.1) topicUrl acc)
        topics
      goTopics fetch known rest topics2

/-- Embedding of `scraper.get_topics`: fetch the homepage, validate its
links, then mine topic elements from each linked article page. -/
def get_topics (stubs : List PyStr) (fetch : PyStr → Option TopicSoup)
    (homepage : PyStr) (known : List PyStr) : Option (List (PyStr × PyStr)) :=
  match fetch homepage with
  | none => none
  | some hp => goTopics fetch known (get_valid_urls stubs hp.links) []

/-! ### scraper.get_article_data and scraper.write_articles -/

/-- An article page as `get_article_data` sees it after parsing:
`pubDate` is the parsed `datetime` attribute of the `<time>` element when one
is present (dates are modelled as integers, ordered as dates are);
`headline` is the value `get_headline` produces for this page (possibly
`""`); `storyParagraphs` is `some` of the paragraph texts inside the story
`<div>`s when `find_all` finds such divs, `none` otherwise. -/
structure ArticlePage where
  pubDate : Option Int
  headline : String
  storyParagraphs : Option (List String)

/-- The age filter of `scraper.get_article_data`: an article is rejected when
a date element was found and `article_date <= OLDEST_ARTICLE_DATE`. -/
def dateRejected (cutoff : Int) : Option Int → Bool
  | some d => decide (d ≤ cutoff)
  | none => false

/-- The body assembly of `scraper.get_article_data`: `story_text` starts as
`" "`, becomes the `" "`-join of the paragraph texts when story divs were
found, and is finally mapped to `None` when it is still exactly `" "`. -/
def extractBody : Option (List String) → Option String
  | none => none
  | some ps =>
    let t := String.intercalate (" ") ps
    if t = (" ") then none else some t

/-- Embedding of `scraper.get_article_data`: returns the
`(headline, story_text, article_url)` triple, where a date at or before the
cutoff short-circuits to `("", "", url)` (middle component `some ""`, the
Python empty string, which is falsy for the caller). -/
def get_article_data (cutoff : Int) (url : String) (page : ArticlePage) :
    String × Option String × String :=
  if dateRejected cutoff page.pubDate then (("") , some (""), url)
  else (page.headline, extractBody page.storyParagraphs, url)

/-- Python truthiness of the `paragraphs` value tested by `write_articles`:
`None` and `""` are falsy, any other string truthy. -/
def pyTruthyStr : Option String → Bool
  | none => false
  | some s => decide (¬ s = (""))

/-- One row of a per-category sink, columns `[headline, text, category, url]`. -/
structure Row where
  headline : String
  text : String
  category : String
  url : String
deriving DecidableEq

/-- Embedding of the loop of `scraper.write_articles` over the discovered
URLs.  Each item pairs an article URL with the page its fetch yields; the
extracted triple is written as a row only when `paragraphs` is truthy;
`story_num` counts written rows and the function returns as soon as
`story_num == no_of_articles` (checked every iteration, after a potential
write).  `quota` is `no_of_articles`; the initial call uses `story_num = 0`. -/
def write_articles (cutoff : Int) (category : String) (quota : Int) :
    Nat → List (String × ArticlePage) → List Row
  | _, [] => []
  | storyNum, (url, page) :: rest =>
    let t := get_article_data cutoff url page
    if pyTruthyStr t.2.1 then
      let row : Row := ⟨t.1, t.2.1.getD (""), category, t.2.2⟩
      if (storyNum : Int) + 1 = quota then [row]
      else row :: write_articles cutoff category quota (storyNum + 1) rest
    else
      if (storyNum : Int) = quota then []
      else write_articles cutoff category quota storyNum rest

/-- The per-item write decision of `write_articles`, factored out: the row
that the loop body writes for one item, when it writes one. -/
def acceptRow (cutoff : Int) (category : String) (item : String × ArticlePage) : Option Row :=
  let t := get_article_data cutoff item.1 item.2
  if pyTruthyStr t.2.1 then some ⟨t.1, t.2.1.getD (""), category, t.2.2⟩ else none

/-! ### The spread quota allocation and the final merge of `__main__` -/

/-- Embedding of the quota allocation in `scraper.__main__`:
`articles_per_category` starts as `no_of_articles`; when
`no_of_articles > 0 and spread`, it becomes
`(no_of_articles - 10) // (len(categories) - 1)` if `"MOST_POPULAR"` is among
the categories (its fixed 10 articles are reserved first) and
`no_of_articles // len(categories)` otherwise.  Python `//` on ints is floor
division, i.e. `Int.fdiv`. -/
def articles_per_category_policy (no_of_articles : Int) (spread : Bool)
    (numCategories : Nat) (hasMostPopular : Bool) : Int :=
  if 0 < no_of_articles ∧ spread = true then
    if hasMostPopular then (no_of_articles - 10).fdiv ((numCategories : Int) - 1)
    else no_of_articles.fdiv (numCategories : Int)
  else no_of_articles

/-- Embedding of `pd.concat(all_dfs).drop_duplicates(subset="url",
keep="last")` in `scraper.__main__`: over the concatenated rows of all
per-category sinks, a row is kept exactly when no later row has the same
`url`, preserving the order of the kept rows. -/
def drop_duplicates_url_keep_last : List Row → List Row
  | [] => []
  | r :: rest =>
    if rest.any (fun s => s.url == r.url) then drop_duplicates_url_keep_last rest
    else r :: drop_duplicates_url_keep_last rest

example :
    get_urls []
      (ListingSite.mk 2 (fun _ => [some (("/a/1").data)])) (-1) =
    [("https://www.bbc.com/a/1").data, ("https://www.bbc.com/a/1").data] := by decide

example :
    articles_per_category_policy 100 true 5 true = 22 := by decide

example :
    drop_duplicates_url_keep_last
      [⟨("h1"), ("t1"), ("x"), ("A")⟩, ⟨("h2"), ("t2"), ("y"), ("A")⟩] =
    [⟨("h2"), ("t2"), ("y"), ("A")⟩] := by decide

/-! ### Helper lemmas about the writer -/

/-- With `no_of_articles = -1` the loop counter (a natural number, and
`story_num + 1` a positive one) never equals the quota, so `write_articles`
never returns early and emits exactly the accepted rows. -/
theorem write_articles_neg_one (cutoff : Int) (category : String) :
    ∀ (n : Nat) (items : List (String × ArticlePage)),
      write_articles cutoff category (-1) n items =
        items.filterMap (acceptRow cutoff category) := by
  intro n items
  induction items generalizing n with
  | nil => rfl
  | cons item rest ih =>
    obtain ⟨url, page⟩ := item
    by_cases hp : pyTruthyStr (get_article_data cutoff url page).2.1 = true
    · simp only [write_articles, hp, if_true,
        if_neg (by omega : ¬((n : Int) + 1 = -1)), ih, List.filterMap_cons]
      simp [acceptRow, hp]
    · simp only [write_articles, Bool.not_eq_true] at hp ⊢
      simp only [hp, Bool.false_eq_true, if_false,
        if_neg (by omega : ¬((n : Int) = -1)), ih, List.filterMap_cons]
      simp [acceptRow, hp]

/-- Counting invariant of the writer loop: starting below a positive quota
`k` with counter `n`, at most `k - n` further rows are written. -/
theorem write_articles_length_le (cutoff : Int) (category : String) (k : Int) :
    ∀ (items : List (String × ArticlePage)) (n : Nat), (n : Int) < k →
      ((write_articles cutoff category k n items).length : Int) ≤ k - n := by
  intro items
  induction items with
  | nil => intro n h; simp [write_articles]; omega
  | cons item rest ih =>
    intro n h
    obtain ⟨url, page⟩ := item
    by_cases hp : pyTruthyStr (get_article_data cutoff url page).2.1 = true
    · by_cases he : (n : Int) + 1 = k
      · simp only [write_articles, hp, if_true, he, if_pos rfl]
        simp; omega
      · have := ih (n + 1) (by omega)
        simp only [write_articles, hp, if_true, if_neg he, List.length_cons]
        push_cast at this ⊢
        omega
    · have := ih n h
      simp only [write_articles, Bool.not_eq_true] at hp ⊢
      simp only [hp, Bool.false_eq_true, if_false,
        if_neg (by omega : ¬((n : Int) = k))]
      exact this

/-! ### Claims C5, C6, C7 -/

/-- Claim C5: an article whose extracted publish date is on or before the
configured cutoff (including exact equality, the comparison being `<=`) is
rejected silently by `get_article_data` — it returns the empty-body triple
rather than raising — and the caller `write_articles` writes no record for
it. -/
theorem cutoff_date_rejects_inclusive (cutoff : Int) (category url : String)
    (page : ArticlePage) (d : Int) (h1 : page.pubDate = some d) (h2 : d ≤ cutoff) :
    get_article_data cutoff url page = (("") , some (""), url) ∧
    write_articles cutoff category (-1) 0 [(url, page)] = [] := by
  have hrej : dateRejected cutoff page.pubDate = true := by
    rw [h1]; simpa [dateRejected] using h2
  constructor
  · rw [get_article_data, if_pos hrej]
  · rw [write_articles_neg_one]
    simp [acceptRow, get_article_data, hrej, pyTruthyStr]

/-- Witness for C5: a publish date exactly equal to the cutoff is skipped. -/
theorem cutoff_date_rejects_inclusive_witness :
    get_article_data 5 ("u") (ArticlePage.mk (some 5) ("h") (some [("x")])) =
      (("") , some (""), ("u")) ∧
    write_articles 5 ("cat") (-1) 0
      [(("u"), ArticlePage.mk (some 5) ("h") (some [("x")]))] = [] :=
  cutoff_date_rejects_inclusive 5 ("cat") ("u") _ 5 rfl (by decide)

/-- Claim C6: the writer persists a row for an extracted article exactly when
the extracted body is a non-empty string (Python truthiness of
`paragraphs`); an empty headline alone never causes rejection — a record
with empty headline but non-empty body is still written, headline field
empty. -/
theorem persist_iff_body_truthy (cutoff : Int) (category url : String)
    (page : ArticlePage) :
    (write_articles cutoff category (-1) 0 [(url, page)] ≠ [] ↔
      pyTruthyStr (get_article_data cutoff url page).2.1 = true) ∧
    (∀ s : String, page.headline = ("") →
      dateRejected cutoff page.pubDate = false →
      extractBody page.storyParagraphs = some s → ¬ s = ("") →
      write_articles cutoff category (-1) 0 [(url, page)] =
        [⟨("") , s, category, url⟩]) := by
  constructor
  · rw [write_articles_neg_one]
    by_cases hp : pyTruthyStr (get_article_data cutoff url page).2.1 = true
    · simp [acceptRow, hp]
    · simp only [Bool.not_eq_true] at hp
      simp [acceptRow, hp]
  · intro s hhead hdate hbody hs
    rw [write_articles_neg_one]
    simp [acceptRow, get_article_data, hdate, hbody, hhead, pyTruthyStr, hs]

/-- Witness for C6: empty headline, non-empty body — the row is written. -/
theorem persist_iff_body_truthy_witness :
    write_articles 0 ("c") (-1) 0
      [(("u"), ArticlePage.mk none ("") (some [("hi")]))] =
    [⟨("") , ("hi"), ("c"), ("u")⟩] :=
  (persist_iff_body_truthy 0 ("c") ("u")
      (ArticlePage.mk none ("") (some [("hi")]))).2 ("hi") rfl rfl (by decide) (by decide)

/-- Claim C7: with quota `k > 0` the per-category writer stops as soon as the
running accepted count reaches `k`, hence never writes more than `k` rows;
with quota `-1` it never stops early and writes exactly the accepted rows of
the whole URL list. -/
theorem writer_quota_enforcement (cutoff : Int) (category : String)
    (items : List (String × ArticlePage)) :
    (∀ k : Int, 0 < k →
      ((write_articles cutoff category k 0 items).length : Int) ≤ k) ∧
    write_articles cutoff category (-1) 0 items =
      items.filterMap (acceptRow cutoff category) := by
  constructor
  · intro k hk
    have := write_articles_length_le cutoff category k items 0 (by omega)
    simpa using this
  · exact write_articles_neg_one cutoff category 0 items

/-- Witness for C7: with quota 1 and two acceptable articles, only one row is
written; with quota -1 both accepted rows appear. -/
theorem writer_quota_enforcement_witness :
    ((write_articles 0 ("c") 1 0
        [(("u1"), ArticlePage.mk none ("h") (some [("x")])),
         (("u2"), ArticlePage.mk none ("h") (some [("y")]))]).length : Int) ≤ 1 :=
  (writer_quota_enforcement 0 ("c")
      [(("u1"), ArticlePage.mk none ("h") (some [("x")])),
       (("u2"), ArticlePage.mk none ("h") (some [("y")]))]).1 1 (by decide)

/-! ### Claim C2 -/

/-- Claim C2: with the spread flag and `requested_total > 0`, every category
other than the always-complete `MOST_POPULAR` feed receives quota
`(requested_total - 10) // (n - 1)` when `MOST_POPULAR` is among the `n`
selected categories (so at least one other category exists, `2 ≤ n`), and
`requested_total // n` otherwise; in particular 100 articles over 5
categories including `MOST_POPULAR` gives the other 4 a quota of 22. -/
theorem spread_allocation_quota (requested_total : Int) (n : Nat)
    (hpos : 0 < requested_total) (_hn : 2 ≤ n) :
    articles_per_category_policy requested_total true n true =
      (requested_total - 10).fdiv ((n : Int) - 1) ∧
    articles_per_category_policy requested_total true n false =
      requested_total.fdiv (n : Int) ∧
    articles_per_category_policy 100 true 5 true = 22 := by
  refine ⟨?_, ?_, by decide⟩
  · simp [articles_per_category_policy, hpos]
  · simp [articles_per_category_policy, hpos]

/-- Witness for C2 at the spec's example: 100 articles, 5 categories. -/
theorem spread_allocation_quota_witness :
    articles_per_category_policy 100 true 5 true =
      ((100 : Int) - 10).fdiv (((5 : Nat) : Int) - 1) ∧
    articles_per_category_policy 100 true 5 false =
      (100 : Int).fdiv (((5 : Nat) : Int)) ∧
    articles_per_category_policy 100 true 5 true = 22 :=
  spread_allocation_quota 100 5 (by decide) (by decide)

/-! ### Claim C3 -/

/-- Appending in front of a non-empty list does not change its last element. -/
theorem getLast?_cons_of_ne_nil {α : Type} {a : α} {l : List α} (h : l ≠ []) :
    (a :: l).getLast? = l.getLast? := by
  cases l with
  | nil => exact absurd rfl h
  | cons b t => simp

/-- Filtering the merged (keep-last-deduplicated) rows down to one URL leaves
exactly the last occurrence of that URL in the original concatenation. -/
theorem keepLast_filter (u : String) :
    ∀ rows : List Row,
      (drop_duplicates_url_keep_last rows).filter (fun r => r.url == u) =
        ((rows.filter (fun r => r.url == u)).getLast?).toList := by
  intro rows
  induction rows with
  | nil => rfl
  | cons r rest ih =>
    by_cases hany : rest.any (fun s => s.url == r.url) = true
    · rw [drop_duplicates_url_keep_last, if_pos hany, ih]
      by_cases hu : r.url = u
      · have hne : rest.filter (fun s => s.url == u) ≠ [] := by
          obtain ⟨s, hs, hsu⟩ := List.any_eq_true.mp hany
          have hsr : s.url = r.url := by simpa using hsu
          intro hnil
          rw [List.filter_eq_nil_iff] at hnil
          exact hnil s hs (by simp [hsr, hu])
        rw [List.filter_cons_of_pos (by simp [hu]), getLast?_cons_of_ne_nil hne]
      · rw [List.filter_cons_of_neg (by simp [hu])]
    · rw [drop_duplicates_url_keep_last, if_neg hany]
      by_cases hu : r.url = u
      · have hzero : rest.filter (fun s => s.url == u) = [] := by
          rw [List.filter_eq_nil_iff]
          intro s hs hsu
          refine hany (List.any_eq_true.mpr ⟨s, hs, ?_⟩)
          have : s.url = u := by simpa using hsu
          simp [this, hu]
        rw [List.filter_cons_of_pos (by simp [hu]),
          List.filter_cons_of_pos (by simp [hu]), ih, hzero]
        rfl
      · rw [List.filter_cons_of_neg (by simp [hu]),
          List.filter_cons_of_neg (by simp [hu]), ih]

/-- Claim C3: whenever two or more rows of the concatenated per-category
record sequences share a `url`, the merged corpus contains exactly one row
for that `url`, and it equals the last occurrence in concatenation order (a
later category's row wins on collision). -/
theorem merge_keeps_last_occurrence (rows : List Row) (u : String)
    (h : 2 ≤ (rows.filter (fun r => r.url == u)).length) :
    ∃ last : Row,
      (rows.filter (fun r => r.url == u)).getLast? = some last ∧
      (drop_duplicates_url_keep_last rows).filter (fun r => r.url == u) = [last] := by
  cases e : (rows.filter (fun r => r.url == u)).getLast? with
  | none =>
    rw [List.getLast?_eq_none_iff] at e
    rw [e] at h
    simp at h
  | some last =>
    exact ⟨last, rfl, by rw [keepLast_filter, e]; rfl⟩

/-- Witness for C3 at the spec's example: merging `{url "A", cat "x"}` then
`{url "A", cat "y"}` yields the single later row. -/
theorem merge_keeps_last_occurrence_witness :
    ∃ last : Row,
      ([Row.mk ("h1") ("t1") ("x") ("A"),
        Row.mk ("h2") ("t2") ("y") ("A")].filter
          (fun r => r.url == ("A"))).getLast? = some last ∧
      (drop_duplicates_url_keep_last
          [Row.mk ("h1") ("t1") ("x") ("A"),
           Row.mk ("h2") ("t2") ("y") ("A")]).filter
        (fun r => r.url == ("A")) = [last] :=
  merge_keeps_last_occurrence
    [Row.mk ("h1") ("t1") ("x") ("A"), Row.mk ("h2") ("t2") ("y") ("A")]
    ("A") (by decide)

/-! ### Claim C1 -/

/-- With quota `-1` the page loop never breaks early and appends every
remaining page's validated URLs in page order. -/
theorem urlPages_unbounded (stubs : List PyStr) (site : ListingSite) :
    ∀ (ks : List Nat) (acc : List PyStr),
      urlPages stubs site (-1) ks acc =
        acc ++ (ks.map (fun k => get_valid_urls stubs (site.page k))).flatten := by
  intro ks
  induction ks with
  | nil => intro acc; simp [urlPages]
  | cons k rest ih =>
    intro acc
    rw [urlPages, if_neg (by intro hc; exact absurd hc.1 (by decide))]
    rw [ih, List.map_cons, List.flatten_cons, List.append_assoc]

/-- Counterexample to C1 as stated: with quota `-1` and the same href served
on both of the two listing pages, the resulting URL appears twice in the
output of `get_urls` — the per-page `list(set(...))` deduplication is not
applied across pages, where plain list concatenation is used. -/
theorem discovery_dedup_counterexample :
    (get_urls []
        (ListingSite.mk 2 (fun _ => [some (("/a/1").data)])) (-1)).count
      (("https://www.bbc.com/a/1").data) = 2 := by decide

/-- Claim C1 amended: for a category whose listing spans `N ≥ 1` pages and
quota `-1`, `get_urls` walks all `N` pages and returns the concatenation, in
page order, of the per-page deduplicated valid-URL lists; a URL occurring on
several pages appears once per page (deduplication is per page only). -/
theorem discovery_concat_all_pages (stubs : List PyStr) (site : ListingSite)
    (h : 1 ≤ site.pageCount) :
    get_urls stubs site (-1) =
      ((List.range' 1 site.pageCount).map
        (fun k => get_valid_urls stubs (site.page k))).flatten := by
  obtain ⟨m, hm⟩ : ∃ m, site.pageCount = m + 1 := ⟨site.pageCount - 1, by omega⟩
  simp only [get_urls, hm, Nat.add_sub_cancel]
  rw [List.range'_succ]
  by_cases h1 : 1 < m + 1
  · rw [if_pos h1, if_neg (by intro hc; exact absurd hc.1 (by decide)),
      urlPages_unbounded]
    simp
  · have hm0 : m = 0 := by omega
    subst hm0
    simp [List.range']

/-- Witness for C1: a three-page listing with overlapping hrefs, quota `-1`. -/
theorem discovery_concat_all_pages_witness :
    get_urls []
      (ListingSite.mk 3
        (fun k => if k = 1 then [some (("/a/1").data), some (("/b/2").data)]
          else [some (("/a/1").data)])) (-1) =
      ((List.range' 1
        (ListingSite.mk 3
          (fun k => if k = 1 then [some (("/a/1").data), some (("/b/2").data)]
            else [some (("/a/1").data)])).pageCount).map
        (fun k => get_valid_urls []
          ((ListingSite.mk 3
            (fun k => if k = 1 then [some (("/a/1").data), some (("/b/2").data)]
              else [some (("/a/1").data)])).page k))).flatten :=
  discovery_concat_all_pages []
    (ListingSite.mk 3
      (fun k => if k = 1 then [some (("/a/1").data), some (("/b/2").data)]
        else [some (("/a/1").data)]))
    (by decide)

/-! ### Claim C4 -/

/-- Concrete fetch oracle for the topic-discovery claim: the homepage lists
two valid article links; fetching the first article raises (modelled as
`none`), fetching the second succeeds and its page carries one topic
element. -/
def fetchEx : PyStr → Option TopicSoup :=
  fun u =>
    if u = ("hp").data then
      some (TopicSoup.mk [some (("/a/1").data), some (("/b/2").data)] [])
    else if u = ("https://www.bbc.com/b/2").data then
      some (TopicSoup.mk [] [((("T").data), (("/topic/x").data))])
    else none

/-- Counterexample to C4 as stated: when fetching the first candidate
article fails, `get_topics` returns nothing at all — the loop has no
`try`/`except`, so the failure aborts the whole discovery — even though the
remaining link alone would have yielded a topic (second conjunct). -/
theorem topics_fetch_failure_counterexample :
    get_topics [] fetchEx (("hp").data) [] = none ∧
    goTopics fetchEx [] [("https://www.bbc.com/b/2").data] [] =
      some [((("T").data), (("https://www.bbc.com/topic/x").data))] := by
  constructor <;> decide

/-- Failure propagation of the per-article loop of `get_topics`: one failed
fetch anywhere in the URL list makes the whole loop yield `none`. -/
theorem goTopics_abort (fetch : PyStr → Option TopicSoup) (known : List PyStr) :
    ∀ (urls : List PyStr) (topics : List (PyStr × PyStr)),
      (∃ u ∈ urls, fetch u = none) →
      goTopics fetch known urls topics = none := by
  intro urls
  induction urls with
  | nil =>
    intro topics h
    obtain ⟨u, hu, _⟩ := h
    exact absurd hu (List.not_mem_nil u)
  | cons u0 rest ih =>
    intro topics h
    obtain ⟨u, hu, hf⟩ := h
    cases hf0 : fetch u0 with
    | none => simp [goTopics, hf0]
    | some soup =>
      rcases List.mem_cons.mp hu with rfl | hmem
      · rw [hf0] at hf
        cases hf
      · simp only [goTopics, hf0]
        exact ih _ ⟨u, hmem, hf⟩

/-- Claim C4 amended: a failure fetching any single candidate article page
aborts the whole topic discovery — the exception propagates out of
`get_topics`, and the topics minable from the remaining links are lost. -/
theorem topics_fetch_failure_aborts (stubs : List PyStr)
    (fetch : PyStr → Option TopicSoup) (homepage : PyStr) (known : List PyStr)
    (hp : TopicSoup) (h1 : fetch homepage = some hp)
    (h2 : ∃ u ∈ get_valid_urls stubs hp.links, fetch u = none) :
    get_topics stubs fetch homepage known = none := by
  simp only [get_topics, h1]
  exact goTopics_abort fetch known _ [] h2

/-- Witness for C4 amended, at the concrete fetch oracle. -/
theorem topics_fetch_failure_aborts_witness :
    get_topics [] fetchEx (("hp").data) [] = none :=
  topics_fetch_failure_aborts [] fetchEx (("hp").data) []
    (TopicSoup.mk [some (("/a/1").data), some (("/b/2").data)] [])
    (by decide)
    ⟨("https://www.bbc.com/a/1").data, by decide, by decide⟩

/-! ### Claim C8 -/

/-- Claim C8: every href whose stripped form carries one of the deny-listed
path prefixes (topics, sport/michezo, radio, TV, media, institutional
sections) is rejected by the validity predicate `_is_valid_url_sw` — its
value in a boolean context is false — regardless of whether the final path
segment ends in a digit or is entirely numeric (no digit condition appears
in the hypothesis). -/
theorem deny_listed_always_rejected (href : PyStr)
    (h : ∃ p ∈ swDenyList, p.isPrefixOf (pyReplace bbcHost [] href) = true) :
    (_is_valid_url_sw href).getD false = false := by
  obtain ⟨p, hmem, hpre⟩ := h
  have hpre' : p <+: pyReplace bbcHost [] href :=
    List.isPrefixOf_iff_prefix.mp hpre
  have hmem' : p = ("/swahili/topics").data ∨ p = ("/swahili/michezo").data ∨
      p = ("/swahili/bbc_swahili_radio").data ∨ p = ("/swahili/dira-tv").data ∨
      p = ("/swahili/media").data ∨ p = ("/swahili/taasisi").data := by
    simpa [swDenyList] using hmem
  have hsw : ("/swahili/").data.isPrefixOf (pyReplace bbcHost [] href) = true := by
    apply List.isPrefixOf_iff_prefix.mpr
    refine List.IsPrefix.trans ?_ hpre'
    rcases hmem' with rfl | rfl | rfl | rfl | rfl | rfl <;> decide
  have hart :
      ¬ (("/swahili/articles/").data.isPrefixOf (pyReplace bbcHost [] href) = true) := by
    intro hA
    have hA' := List.isPrefixOf_iff_prefix.mp hA
    have hcomp := List.prefix_or_prefix_of_prefix hA' hpre'
    rcases hmem' with rfl | rfl | rfl | rfl | rfl | rfl <;>
      rcases hcomp with hc | hc <;> exact absurd hc (by decide)
  have hany :
      swDenyList.any (fun q => q.isPrefixOf (pyReplace bbcHost [] href)) = true :=
    List.any_eq_true.mpr ⟨p, hmem, hpre⟩
  simp only [_is_valid_url_sw]
  rw [if_neg hart, if_pos (by rw [hsw]; simp), if_pos hany]
  rfl

/-- Witness for C8: a deny-listed href whose last segment even ends in a
digit is still rejected. -/
theorem deny_listed_always_rejected_witness :
    (_is_valid_url_sw (("/swahili/topics/c-123").data)).getD false = false :=
  deny_listed_always_rejected (("/swahili/topics/c-123").data)
    ⟨("/swahili/topics").data, by decide, by decide⟩

/-! ### Claim C9 -/

/-- Splitting never produces the empty list of segments (Python
`s.split(sep)` returns at least one segment). -/
theorem pySplitPred_ne_nil (p : Char → Bool) : ∀ s : PyStr, pySplitPred p s ≠ [] := by
  intro s
  cases s with
  | nil => simp [pySplitPred]
  | cons c rest =>
    rw [pySplitPred]
    by_cases hc : p c
    · simp [hc]
    · rw [if_neg hc]
      cases hsp : pySplitPred p rest with
      | nil => simp
      | cons a t => simp

/-- Specialisation of the previous lemma to one-character separators. -/
theorem pySplit_ne_nil (sep : Char) (s : PyStr) : pySplit sep s ≠ [] :=
  pySplitPred_ne_nil _ s

/-- Members of the non-empty filter are non-empty. -/
theorem ne_nil_of_mem_filterNonEmpty {x : PyStr} {ls : List PyStr}
    (h : x ∈ filterNonEmpty ls) : x ≠ [] := by
  rw [filterNonEmpty] at h
  have h2 := (List.mem_filter.mp h).2
  simpa using h2

/-- Inversion of the caught-exception unpack: a successful unpack means the
href was present, split into exactly the two non-empty segments, and the
stub is non-empty. -/
theorem tryUnpack_some {href : Option PyStr} {h stub : PyStr}
    (e : tryUnpack href = some (h, stub)) :
    href = some h ∧ stub ≠ [] ∧
      ∃ a, filterNonEmpty (pySplit '/' h) = [a, stub] := by
  cases href with
  | none => cases e
  | some h' =>
    rw [tryUnpack] at e
    split at e
    · rename_i a b heq
      simp only [Option.some.injEq, Prod.mk.injEq] at e
      obtain ⟨rfl, rfl⟩ := e
      exact ⟨rfl, ne_nil_of_mem_filterNonEmpty (by rw [heq]; simp), a, heq⟩
    · cases e

/-- The crash-explicit stub check never raises on the non-empty stubs that
the unpack produces, and agrees with its total rendering. -/
theorem stubCheckE_ok (stubs : List PyStr) (stub : PyStr) (hne : stub ≠ []) :
    stubCheckE stubs stub = Except.ok (stubOk stubs stub) := by
  rw [stubCheckE, stubOk]
  by_cases hd : pyIsDigit stub = true
  · simp [hd]
  · simp only [Bool.not_eq_true] at hd
    rw [if_neg (by simp [hd])]
    cases hsp : pySplit '-' stub with
    | nil => exact absurd hsp (pySplit_ne_nil '-' stub)
    | cons a t =>
      cases hl : stub.getLast? with
      | none => exact absurd (List.getLast?_eq_none_iff.mp hl) hne
      | some c =>
        by_cases hcon : a ∈ stubs <;>
          simp [hsp, pyHeadE, pyLastE, hl, hd, hcon, List.getLastD_eq_getLast?]

/-- The crash-explicit per-href step of `get_valid_urls` never raises and
agrees with its total rendering. -/
theorem hrefStepE_ok (stubs : List PyStr) (href : Option PyStr) :
    hrefStepE stubs href = Except.ok (hrefStep stubs href) := by
  cases e : tryUnpack href with
  | none => simp [hrefStepE, hrefStep, e]
  | some pr =>
    obtain ⟨h, stub⟩ := pr
    have hinv := tryUnpack_some e
    simp [hrefStepE, hrefStep, e, stubCheckE_ok stubs stub hinv.2.1]

/-- The crash-explicit Swahili validity predicate never raises and agrees
with its total rendering. -/
theorem _is_valid_url_sw_E_ok (href : PyStr) :
    _is_valid_url_sw_E href = Except.ok (_is_valid_url_sw href) := by
  rw [_is_valid_url_sw_E, _is_valid_url_sw]
  by_cases h1 : ("/swahili/articles/").data.isPrefixOf (pyReplace bbcHost [] href) = true
  · simp [h1]
  · by_cases h2 : (("/swahili/habari-").data.isPrefixOf (pyReplace bbcHost [] href) ||
        ("/swahili/").data.isPrefixOf (pyReplace bbcHost [] href)) = true
    · by_cases h3 :
          swDenyList.any (fun q => q.isPrefixOf (pyReplace bbcHost [] href)) = true
      · simp [h1, h2, h3]
      · have hne : pyReplace bbcHost [] href ≠ [] := by
          intro h0
          rw [h0] at h2
          exact absurd h2 (by decide)
        cases hl : (pyReplace bbcHost [] href).getLast? with
        | none => exact absurd (List.getLast?_eq_none_iff.mp hl) hne
        | some c =>
          simp [h1, h2, h3, pyLastE, hl, List.getLastD_eq_getLast?]
    · simp [h1, h2]

/-- Claim C9: the URL validity checks are total over arbitrary inputs: the
crash-explicit embeddings (with explicit error channels for every partial
indexing the Python performs outside a `try`) never raise and agree with the
total functions, and the malformed inputs — a missing href, an href with the
wrong number of non-empty segments (such as the empty string), the empty
string for the Swahili predicate — are rejected, not errors. -/
theorem validity_checks_never_crash (stubs : List PyStr) (href : Option PyStr)
    (s : PyStr) :
    hrefStepE stubs href = Except.ok (hrefStep stubs href) ∧
    hrefStep stubs none = none ∧
    hrefStep stubs (some ([] : PyStr)) = none ∧
    _is_valid_url_sw_E s = Except.ok (_is_valid_url_sw s) ∧
    _is_valid_url_sw [] = some false :=
  ⟨hrefStepE_ok stubs href, rfl, rfl, _is_valid_url_sw_E_ok s, by decide⟩

/-! ### Claim C10 -/

/-- Deduplication only drops elements. -/
theorem mem_dedupFirstAux {x : PyStr} :
    ∀ (seen l : List PyStr), x ∈ dedupFirstAux seen l → x ∈ l := by
  intro seen l
  induction l generalizing seen with
  | nil => intro h; exact absurd h (List.not_mem_nil x)
  | cons a rest ih =>
    intro h
    rw [dedupFirstAux] at h
    by_cases ha : a ∈ seen
    · rw [if_pos ha] at h
      exact List.mem_cons_of_mem a (ih seen h)
    · rw [if_neg ha] at h
      rcases List.mem_cons.mp h with rfl | hm
      · exact List.mem_cons_self _ _
      · exact List.mem_cons_of_mem a (ih _ hm)

/-- Inversion of the accept step: an accepted href was present, the returned
URL is the site prefix concatenated with it, and it split into exactly two
non-empty slash-separated segments. -/
theorem hrefStep_some {stubs : List PyStr} {href : Option PyStr} {u : PyStr}
    (e : hrefStep stubs href = some u) :
    ∃ h, href = some h ∧ u = bbcHost ++ h ∧
      (filterNonEmpty (pySplit '/' h)).length = 2 := by
  rw [hrefStep] at e
  cases et : tryUnpack href with
  | none => rw [et] at e; cases e
  | some pr =>
    obtain ⟨h, stub⟩ := pr
    rw [et] at e
    have e2 : (if stubOk stubs stub = true then some (bbcHost ++ h) else none) =
        some u := e
    by_cases hok : stubOk stubs stub = true
    · rw [if_pos hok] at e2
      obtain ⟨hhref, hne, a, hsp⟩ := tryUnpack_some et
      injection e2 with e1
      exact ⟨h, hhref, e1.symm, by rw [hsp]; rfl⟩
    · rw [if_neg hok] at e2; cases e2

/-- Counterexample to C10 as stated: the href `https://123` is an absolute
URL carrying its own scheme and host, yet it splits into exactly two
non-empty segments (`https:` and the numeric host `123`), so
`get_valid_urls` accepts it and returns it double-prefixed. -/
theorem absolute_href_double_prefixed :
    get_valid_urls [] [some (("https://123").data)] =
      [("https://www.bbc.comhttps://123").data] := by decide

/-- Claim C10 amended: every URL returned by `get_valid_urls` is the constant
prefix `https://www.bbc.com` concatenated with the original href, and only
hrefs splitting into exactly two non-empty slash-separated segments are ever
accepted — so an absolute href whose path is non-empty (three or more
non-empty segments) is always rejected; however, a degenerate absolute href
whose only two non-empty segments are its scheme and an accepted host (such
as `https://123`) is accepted and returned double-prefixed. -/
theorem returned_urls_shape (stubs : List PyStr) (hrefs : List (Option PyStr))
    (u : PyStr) (hu : u ∈ get_valid_urls stubs hrefs) :
    ∃ h, (some h) ∈ hrefs ∧ u = bbcHost ++ h ∧
      (filterNonEmpty (pySplit '/' h)).length = 2 := by
  rw [get_valid_urls] at hu
  have hu2 := mem_dedupFirstAux _ _ hu
  obtain ⟨href, hmem, hstep⟩ := List.mem_filterMap.mp hu2
  obtain ⟨h, hhref, hequ, hlen⟩ := hrefStep_some hstep
  exact ⟨h, hhref ▸ hmem, hequ, hlen⟩

/-- Witness for C10 amended, at a concrete accepted href. -/
theorem returned_urls_shape_witness :
    ∃ h, (some h) ∈ [some (("/a/1").data)] ∧
      ("https://www.bbc.com/a/1").data = bbcHost ++ h ∧
      (filterNonEmpty (pySplit '/' h)).length = 2 :=
  returned_urls_shape [] [some (("/a/1").data)]
    (("https://www.bbc.com/a/1").data) (by decide)
